import Mathlib

/-!
Verification of the model-service content-analysis core.

Shallow embedding of:
* `app/services/content_analyzer.py` (`ContentAnalyzer`),
* `app/ai/backends/base.py` (`AIBackend._parse_fallback`),
* `app/ai/backends/llama_cpp_backend.py` (`_enhanced_fallback_analysis`),
* `app/ai/backends/ollama_backend.py` (`OllamaBackend.analyze_content`),
* `app/ai/backends/pattern_backend.py` (`PatternBackend.analyze_content`),
* `app/ai/manager.py` (`AIBackendManager`),
* `app/services/slide_processor.py` (`choose_instructor`).

Modelling conventions: Python floats are exact rationals (`ℚ`); Python dicts
whose keys may be absent are records of `JField` values, where
`JField.absent` is a missing key; Python exceptions are `Except Unit`;
calls into the `re` regex library and into `json.loads` are oracle function
parameters (`count`, `search`, `jparse`, ...), so theorems quantified over
them hold for every possible behaviour of those libraries; everything else
(keyword tables, substring tests, truthiness, arithmetic, branch structure)
is translated directly from the Python source.
-/

namespace ModelService

/-! ## Python-modelling helpers -/

/-- Python `min(a, b)` on two numbers. -/
def pymin (a b : ℚ) : ℚ := if a ≤ b then a else b

/-- Python `str.lower()` restricted to ASCII, as a map over the characters. -/
def strLower (s : String) : String := ⟨s.data.map Char.toLower⟩

/-- Python `str.strip()`: drop whitespace from both ends. -/
def strStrip (s : String) : String :=
  ⟨((s.data.dropWhile Char.isWhitespace).reverse.dropWhile Char.isWhitespace).reverse⟩

/-- Python `needle in hay` on strings: substring containment on char lists. -/
def listHasSub (needle : List Char) : List Char → Bool
  | [] => needle.isEmpty
  | c :: rest => needle.isPrefixOf (c :: rest) || listHasSub needle rest

/-- Python `needle in hay` for strings. -/
def strIn (needle hay : String) : Bool := listHasSub needle.data hay.data

/-- Python `str.split()` with no argument: split on whitespace, drop empties. -/
def pySplitWs (s : String) : List String :=
  (s.split Char.isWhitespace).filter (fun w => w != "")

/-- Python `round(q, 3)` (round half to even), on exact rationals. -/
def round3 (q : ℚ) : ℚ :=
  if q * 1000 - ⌊q * 1000⌋ > 1/2 then ((⌊q * 1000⌋ + 1 : ℤ) : ℚ) / 1000
  else if q * 1000 - ⌊q * 1000⌋ < 1/2 then ((⌊q * 1000⌋ : ℤ) : ℚ) / 1000
  else if ⌊q * 1000⌋ % 2 = 0 then ((⌊q * 1000⌋ : ℤ) : ℚ) / 1000
  else ((⌊q * 1000⌋ + 1 : ℤ) : ℚ) / 1000

/-- A JSON/dict field that may be absent (missing key). -/
inductive JField (α : Type) where
  | absent : JField α
  | val : α → JField α
deriving DecidableEq

/-- Python `d.get(key, default)` on a possibly-absent field. -/
def JField.getD {α : Type} : JField α → α → α
  | .absent, d => d
  | .val a, _ => a

/-- The analysis-result dict.  Every Python dict flowing between the
backends and the manager has (a subset of) these five keys. -/
structure PResult where
  instructor_name : JField (Option String)
  training_content : JField String
  category : JField String
  confidence_score : JField ℚ
  extraction_method : JField String
deriving DecidableEq

/-- Python truthiness of `d.get("instructor_name")`:
falsy when the key is missing, `None`, or the empty string. -/
def pyTruthyName : JField (Option String) → Bool
  | .absent => false
  | .val none => false
  | .val (some s) => s != ""

/-- Python truthiness of an optional string (`bool(x)` for `x: str|None`). -/
def pyTruthyOptStr : Option String → Bool
  | none => false
  | some s => s != ""

/-! ## ContentAnalyzer (`app/services/content_analyzer.py`) -/

/-- Source `ContentAnalyzer.calculate_confidence` (lines 253-269), translated
branch for branch: note the source tests `> 500` *before* `> 1000`,
so the `elif transcript_length > 1000` branch is unreachable. -/
def calculate_confidence (instructor_found topics_extracted : Bool)
    (transcript_length : Nat) : ℚ :=
  let b1 : ℚ := 3/10
  let b2 := if instructor_found then b1 + 3/10 else b1
  let b3 := if topics_extracted then b2 + 3/10 else b2
  let b4 := if transcript_length > 500 then b3 + 1/10
            else if transcript_length > 1000 then b3 + 2/10
            else b3
  pymin 1 b4

def technologyPatterns : List String :=
  ["\\b(?:python|javascript|java|c\\+\\+|programming|code|coding|software|development|api|database|algorithm)\\b",
   "\\b(?:machine learning|artificial intelligence|data science|web development|mobile app|cloud computing)\\b",
   "\\b(?:cybersecurity|network|server|framework|library|git|docker|kubernetes)\\b"]

def businessPatterns : List String :=
  ["\\b(?:management|leadership|strategy|marketing|sales|finance|accounting|budget)\\b",
   "\\b(?:project management|team building|communication|negotiation|customer service)\\b",
   "\\b(?:entrepreneurship|startup|business plan|roi|revenue|profit|analytics)\\b"]

def healthPatterns : List String :=
  ["\\b(?:medical|healthcare|patient|clinical|diagnosis|treatment|therapy)\\b",
   "\\b(?:wellness|nutrition|fitness|mental health|safety|first aid)\\b",
   "\\b(?:pharmaceutical|nursing|surgery|anatomy|physiology)\\b"]

def educationPatterns : List String :=
  ["\\b(?:teaching|learning|curriculum|pedagogy|assessment|classroom)\\b",
   "\\b(?:student|education|academic|research|university|college)\\b",
   "\\b(?:lesson plan|instructional design|e-learning|training)\\b"]

/-- Source `ContentAnalyzer.topic_patterns`: the four declared category pattern
groups, in declaration order.  There is no `Science` group. -/
def topic_patterns : List (String × List String) :=
  [("Technology", technologyPatterns),
   ("Business", businessPatterns),
   ("Health", healthPatterns),
   ("Education", educationPatterns)]

/-- One group score: `score += len(re.findall(pattern, text))`, summed over a pattern group;
`count` is the oracle for `len(re.findall(p, text, re.IGNORECASE))`. -/
def categorySum (count : String → String → Nat) (text : String)
    (pats : List String) : Nat :=
  (pats.map (fun p => count p text)).sum

/-- The `category_scores` dict, in insertion order. -/
def categoryScores (count : String → String → Nat) (text : String) :
    List (String × Nat) :=
  topic_patterns.map (fun cp => (cp.1, categorySum count text cp.2))

/-- Python `max(d, key=d.get)` over an insertion-ordered dict: the first
key attaining the maximal value. -/
def firstArgmax (l : List (String × Nat)) : String × Nat :=
  match l with
  | [] => ("", 0)
  | x :: xs => xs.foldl (fun best cur => if cur.2 > best.2 then cur else best) x

/-- Python `max(d.values())` (0 on the empty dict). -/
def listMaxN (l : List Nat) : Nat := l.foldr Nat.max 0

/-- Source `ContentAnalyzer.detect_category` (lines 235-251). -/
def detect_category (count : String → String → Nat)
    (transcript filename : String) : String :=
  let text := strLower (transcript ++ " " ++ filename)
  let scores := categoryScores count text
  if listMaxN (scores.map Prod.snd) > 0 then (firstArgmax scores).1
  else "Unknown"

/-- Oracle bundle for the regex-driven `ContentAnalyzer` extractors the
manager calls: `extract_instructor_name`, `extract_comprehensive_topics`
and `detect_category` (each a pure function of its text arguments). -/
structure AnalyzerOracle where
  extractInstructor : String → Option String
  extractTopics : String → String
  detectCat : String → String → String

/-! ## `AIBackend._parse_fallback` (`app/ai/backends/base.py`, lines 12-40) -/

def base_instructor_patterns : List String :=
  ["I\x27m ([A-Z][a-z]+ [A-Z][a-z]+)",
   "My name is ([A-Z][a-z]+ [A-Z][a-z]+)",
   "This is ([A-Z][a-z]+ [A-Z][a-z]+)"]

def base_keywords : List (String × List String) :=
  [("Technology", ["python", "programming", "code", "software", "java", "web", "api"]),
   ("Business", ["management", "leadership", "marketing", "sales", "business"]),
   ("Education", ["teaching", "learning", "course", "lesson", "training"]),
   ("Health", ["health", "medical", "fitness", "wellness"]),
   ("Science", ["research", "science", "biology", "chemistry", "physics"])]

/-- The `for pat in [...]` loop with `break` on the first `re.search` hit;
`search pat text` is the oracle for `re.search(pat, text)`, returning
`m.group(1)`. -/
def findFirstMatch (search : String → String → Option String)
    (pats : List String) (text : String) : Option String :=
  match pats with
  | [] => none
  | p :: rest =>
    match search p text with
    | some m => some m
    | none => findFirstMatch search rest text

/-- Source `AIBackend._parse_fallback(response, transcript, filename)`.
The `response` argument is unused by the source as well. -/
def parse_fallback (search : String → String → Option String)
    (response transcript filename : String) : PResult :=
  let _ := response
  let r0 : PResult :=
    { instructor_name := .val none,
      training_content := .val ("Training content from " ++ filename),
      category := .val "Unknown",
      confidence_score := .val (3/10),
      extraction_method := .absent }
  let r1 :=
    if transcript != "" then
      match findFirstMatch search base_instructor_patterns transcript with
      | some m => { r0 with instructor_name := .val (some m),
                            confidence_score := .val (7/10) }
      | none => r0
    else r0
  let low := strLower (transcript ++ " " ++ filename)
  match base_keywords.find? (fun kw => kw.2.any (fun k => strIn k low)) with
  | some kw =>
    { r1 with
      category := .val kw.1,
      confidence_score :=
        .val (pymin (8/10) (r1.confidence_score.getD 0 + 2/10)) }
  | none => r1

/-- Source `PatternBackend.analyze_content`: delegates to `_parse_fallback` with
an empty response (`app/ai/backends/pattern_backend.py`, lines 10-11). -/
def patternBackend_analyze (search : String → String → Option String)
    (transcript filename : String) : PResult :=
  parse_fallback search "" transcript filename

/-! ## `LlamaCppBackend._enhanced_fallback_analysis`
(`app/ai/backends/llama_cpp_backend.py`, lines 133-175) -/

def enh_instructor_patterns : List String :=
  ["(?:I\x27m|I am|My name is|This is|Hello,? I\x27m|Hi,? I\x27m)\\s+([A-Z][a-z]+(?:\\s+[A-Z][a-z]+)+)",
   "Welcome.*?(?:I\x27m|I am)\\s+([A-Z][a-z]+(?:\\s+[A-Z][a-z]+)+)",
   "(?:taught by|instructor|teacher|presenter).*?([A-Z][a-z]+\\s+[A-Z][a-z]+)",
   "([A-Z][a-z]+\\s+[A-Z][a-z]+).*?(?:will be|am)\\s+(?:teaching|presenting|leading)"]

/-- The `category_keywords` table of the enhanced fallback: note the third group is
keyed `"Behaviour"`, not `"Education"`. -/
def enh_category_keywords : List (String × List String) :=
  [("Technology", ["python", "javascript", "programming", "code", "software", "development", "api", "database"]),
   ("Business", ["management", "leadership", "sales", "marketing", "finance", "strategy", "business"]),
   ("Behaviour", ["teaching", "learning", "education", "academic", "curriculum", "student"])]

/-- The instructor loop of `_enhanced_fallback_analysis`: first
`re.search` hit whose stripped group has `>= 2` words and `< 50` chars;
a hit failing validation does not break the loop. -/
def findFirstValidEnh (search : String → String → Option String)
    (pats : List String) (text : String) : Option String :=
  match pats with
  | [] => none
  | p :: rest =>
    match search p text with
    | some m =>
      let name := strStrip m
      if (pySplitWs name).length ≥ 2 && decide (name.length < 50) then some name
      else findFirstValidEnh search rest text
    | none => findFirstValidEnh search rest text

/-- Source `LlamaCppBackend._enhanced_fallback_analysis(transcript, filename)`;
`topicsX` is the oracle for `_extract_topics_from_transcript` (whose
output order depends on Python set iteration). -/
def enhanced_fallback_analysis (search : String → String → Option String)
    (topicsX : String → String) (transcript filename : String) : PResult :=
  let r0 : PResult :=
    { instructor_name := .val none,
      training_content := .val (topicsX transcript),
      category := .val "Unknown",
      confidence_score := .val (1/2),
      extraction_method := .val "pattern-fallback" }
  let r1 :=
    match findFirstValidEnh search enh_instructor_patterns transcript with
    | some name => { r0 with instructor_name := .val (some name),
                             confidence_score := .val (7/10) }
    | none => r0
  let fl := strLower filename
  let tl := strLower transcript
  match enh_category_keywords.find?
      (fun ck => ck.2.any (fun k => strIn k fl || strIn k tl)) with
  | some ck => { r1 with category := .val ck.1 }
  | none => r1

/-! ## `OllamaBackend.analyze_content` (`app/ai/backends/ollama_backend.py`,
lines 18-43) -/

/-- Python `t = (transcript or "").strip(); if len(t) > 1000: t = t[:1000] + "..."`. -/
def ollama_truncate (transcript : String) : String :=
  let t := strStrip transcript
  if t.length > 1000 then ⟨t.data.take 1000⟩ ++ "..." else t

/-- Source `OllamaBackend.analyze_content`.  The unavailability guard
raises outside the `try`.  Inside the `try`, the source binds
`resp = asyncio.to_thread(requests.post, ...)` *without awaiting it*, so
`resp` is a coroutine object and `resp.status_code` raises
`AttributeError` on every call; the `except` branch then returns
`LlamaCppBackend()._parse_fallback("", t, filename)` with the truncated
transcript `t`.  The status-200 / brace-regex / `json.loads` path is
dead code, so the call always reduces to the fallback parser. -/
def ollamaAnalyze (available : Bool)
    (search : String → String → Option String)
    (transcript filename : String) : Except Unit PResult :=
  if !available then .error () else
  .ok (parse_fallback search "" (ollama_truncate transcript) filename)

/-! ## `LlamaCppBackend.analyze_content` (`app/ai/backends/llama_cpp_backend.py`,
lines 47-99) -/

/-- Python `s[:n]`. -/
def strTake (n : Nat) (s : String) : String := ⟨s.data.take n⟩

/-- Python `t = (transcript or "").strip(); if len(t) > 6000: t = t[:6000]`. -/
def llama_truncate (transcript : String) : String :=
  let t := strStrip transcript
  if t.length > 6000 then strTake 6000 t else t

/-- The field coercion on the parsed JSON `data` (lines 91-96): every
one of the four data keys is (re)built with a default, so a JSON object
lacking some keys still yields a dict carrying all four.
`(data.get("instructor_name") or None) if isinstance(..., str) else None`
maps a missing key, a JSON null and an empty string all to `None`;
content/category are stringified with defaults `""`/`"Unknown"` and
truncated to 2000/50 chars; confidence defaults to `0.3`. -/
def llamaCoerce (data : PResult) : PResult :=
  { instructor_name := .val (match data.instructor_name with
      | .val (some s) => if s != "" then some s else none
      | _ => none),
    training_content := .val (strTake 2000 (data.training_content.getD "")),
    category := .val (strTake 50 (data.category.getD "Unknown")),
    confidence_score := .val (data.confidence_score.getD (3/10)),
    extraction_method := .absent }

/-- Source `LlamaCppBackend.analyze_content`: `inference` is the oracle
for the chat-completion call plus `_strip_json` plus `json.loads`
(an exception anywhere in that pipeline is `.error`); on success the
parsed object is coerced field by field, on failure the backend returns
`_enhanced_fallback_analysis(t, filename)`. -/
def llamaAnalyze (available : Bool) (inference : Except Unit PResult)
    (search : String → String → Option String) (topicsX : String → String)
    (transcript filename : String) : Except Unit PResult :=
  if !available then .error () else
  let t := llama_truncate transcript
  .ok (match inference with
    | .ok data => llamaCoerce data
    | .error _ => enhanced_fallback_analysis search topicsX t filename)

/-- All four data keys (`instructor_name`, `training_content`,
`category`, `confidence_score`) are present. -/
def hasDataKeys (r : PResult) : Prop :=
  r.instructor_name ≠ JField.absent ∧ r.training_content ≠ JField.absent ∧
  r.category ≠ JField.absent ∧ r.confidence_score ≠ JField.absent

/-- All five keys are present: a fully-populated result dict. -/
def hasAllKeys (r : PResult) : Prop :=
  hasDataKeys r ∧ r.extraction_method ≠ JField.absent

/-! ## `AIBackendManager` (`app/ai/manager.py`) -/

/-- Step 1 of `_enhance_with_content_analyzer`: fill in the instructor
name when the AI could not (`if not ai_result.get("instructor_name")`),
with a `+0.2` confidence bump clamped to `1.0`. -/
def enhanceStep1 (ca : AnalyzerOracle) (transcript : String)
    (ai : PResult) : PResult :=
  if pyTruthyName ai.instructor_name then ai
  else
    match ca.extractInstructor transcript with
    | some nm =>
      if nm != "" then
        { ai with instructor_name := .val (some nm),
                  confidence_score :=
                    .val (pymin 1 (ai.confidence_score.getD 0 + 2/10)) }
      else ai
    | none => ai

/-- Step 2: replace `training_content` shorter than 100 chars by the
comprehensive topics when those are strictly longer, `+0.1` bump. -/
def enhanceStep2 (ca : AnalyzerOracle) (transcript : String)
    (ai : PResult) : PResult :=
  let current := ai.training_content.getD ""
  if current.length < 100 then
    let topics := ca.extractTopics transcript
    if topics.length > current.length then
      { ai with training_content := .val topics,
                confidence_score :=
                  .val (pymin 1 (ai.confidence_score.getD 0 + 1/10)) }
    else ai
  else ai

/-- The exact condition under which step 1 overwrites the instructor:
the present value is falsy and the heuristic finds a (nonempty) name. -/
def instrReplaced (ca : AnalyzerOracle) (transcript : String) (ai : PResult) : Bool :=
  !(pyTruthyName ai.instructor_name) &&
    pyTruthyOptStr (ca.extractInstructor transcript)

/-- The exact condition under which step 2 overwrites the content:
under 100 chars and the heuristic topics are strictly longer. -/
def contentReplaced (ca : AnalyzerOracle) (transcript : String) (ai : PResult) : Bool :=
  decide ((ai.training_content.getD "").length < 100) &&
    decide ((ca.extractTopics transcript).length > (ai.training_content.getD "").length)

/-- Step 3: replace a `"Unknown"` category by a detected one. -/
def enhanceStep3 (ca : AnalyzerOracle) (transcript filename : String)
    (ai : PResult) : PResult :=
  if ai.category = JField.val "Unknown" then
    let c := ca.detectCat transcript filename
    if c != "Unknown" then { ai with category := .val c } else ai
  else ai

/-- Source `AIBackendManager._enhance_with_content_analyzer` (lines 50-75):
the three merge steps, then the `-enhanced` relabel. -/
def enhanceWith (ca : AnalyzerOracle) (transcript filename : String)
    (ai : PResult) : PResult :=
  let r3 := enhanceStep3 ca transcript filename
              (enhanceStep2 ca transcript (enhanceStep1 ca transcript ai))
  { r3 with
    extraction_method :=
      .val ((r3.extraction_method.getD "unknown") ++ "-enhanced") }

/-- Source `AIBackendManager._fallback_analysis` (lines 77-95). -/
def fallbackAnalysis (ca : AnalyzerOracle) (transcript filename : String) :
    PResult :=
  let instructor := ca.extractInstructor transcript
  let content := ca.extractTopics transcript
  let category := ca.detectCat transcript filename
  let conf := calculate_confidence (pyTruthyOptStr instructor)
      ((content != "") && decide (content.length > 50)) transcript.length
  { instructor_name := .val instructor,
    training_content := .val content,
    category := .val category,
    confidence_score := .val conf,
    extraction_method := .val "content-analyzer-fallback" }

/-- Source `AIBackendManager.analyze_content` (lines 28-48), given the outcome
`backendCall` of `self.active_backend.analyze_content(transcript,
filename)` (`.error` models a raised exception) and the active backend's
`name`.  The `except` branch falls through to `_fallback_analysis`; a
`.error` result value would model an exception escaping the manager. -/
def managerAnalyze (backendCall : Except Unit PResult) (activeName : String)
    (ca : AnalyzerOracle) (transcript filename : String) :
    Except Unit PResult :=
  match backendCall with
  | .error _ => .ok (fallbackAnalysis ca transcript filename)
  | .ok r0 =>
    let r := { r0 with extraction_method := JField.val activeName }
    if pyTruthyName r.instructor_name = false
       ∨ r.confidence_score.getD 0 < 3/10
       ∨ (r.training_content.getD "").length < 30
    then .ok (enhanceWith ca transcript filename r)
    else .ok r

/-! ## `choose_instructor` (`app/services/slide_processor.py`,
lines 315-391) -/

structure Guess where
  name : Option String
  confidence : ℚ
  source : String
deriving DecidableEq

/-- Source `_missing`: `None`, or a string whose stripped lowercase form is in
`{"", "not provided", "unknown", "n/a"}`. -/
def guessMissing : Option String → Bool
  | none => true
  | some s => ["", "not provided", "unknown", "n/a"].contains (strLower (strStrip s))

/-- Python `str(x).lower()` for `x: str|None` (Python renders `None` as "None"). -/
def optLower : Option String → String
  | none => "none"
  | some s => strLower s

/-- Source `choose_instructor(audio_guess, slide_guess)`. -/
def choose_instructor (audio_guess slide_guess : Option Guess) : Guess :=
  let a := audio_guess.getD ⟨none, 0, "audio"⟩
  let s := slide_guess.getD ⟨none, 0, "slides"⟩
  if guessMissing a.name = false ∧ guessMissing s.name = false then
    if optLower a.name = optLower s.name then
      ⟨a.name,
       round3 (pymin (99/100) ((a.confidence + s.confidence) / 2 + 15/100)),
       "audio+slides"⟩
    else if s.confidence ≥ a.confidence + 20/100 then s
    else if a.confidence ≥ s.confidence then a else s
  else if guessMissing a.name = false ∧ a.confidence ≥ 55/100 then
    if guessMissing s.name = false ∧ s.confidence ≥ a.confidence + 20/100 then s
    else a
  else if guessMissing s.name = false ∧ s.confidence ≥ 55/100 then s
  else if a.confidence ≥ s.confidence then a else s

/-! ## Concrete instances used in the closed theorems -/

/-- The real `ContentAnalyzer` on an empty transcript and the filename
`video.mp4`: no instructor pattern matches, no topic phrase matches (the
general-subject fallback yields its default), no category pattern hits. -/
def caEmpty : AnalyzerOracle :=
  { extractInstructor := fun _ => none,
    extractTopics := fun _ => "No content available for analysis",
    detectCat := fun _ _ => "Unknown" }

/-- The transcript `"I'm John Smith."` used for the enhancement
counterexamples and witness. -/
def johnTranscript : String := "I\x27m John Smith."

/-- The real `ContentAnalyzer` on the transcript `"I'm John Smith."`:
the first instructor pattern matches with group `"John Smith"` (the
period stops the greedy group), which passes `_is_valid_name`; no topic
phrase matches and no subject area reaches two keyword hits, so
`extract_comprehensive_topics` returns its ultimate default; no
category pattern hits. -/
def caFindsJohn : AnalyzerOracle :=
  { extractInstructor := fun _ => some "John Smith",
    extractTopics := fun _ => "Professional Development Training",
    detectCat := fun _ _ => "Unknown" }

/-- An analysis result whose `instructor_name` is the *present* empty
string (as a raw backend JSON answer can produce), with content long
enough and category known, so only the instructor merge step can fire. -/
def emptyInstrResult : PResult :=
  { instructor_name := .val (some ""),
    training_content := .val "a training session that covers a good number of previously announced subjects in considerable depth and detail",
    category := .val "Technology",
    confidence_score := .val (1/2),
    extraction_method := .val "ollama" }

/-- An analysis result with an out-of-range confidence of `1.5`
(producible by the llama-cpp coercion, which applies no clamp to
`float(data.get("confidence_score", 0.3))`) and a missing instructor,
so the instructor merge step fires and clamps the confidence down. -/
def highConfResult : PResult :=
  { instructor_name := .val none,
    training_content := .val "a training session that covers a good number of previously announced subjects in considerable depth and detail",
    category := .val "Technology",
    confidence_score := .val (3/2),
    extraction_method := .val "llama-cpp" }

/-- A regex-count oracle where every pattern matches exactly once:
all four category groups then score 3, a four-way tie. -/
def countOne : String → String → Nat := fun _ _ => 1

/-- A guess pair with matching names (spec scenario 3). -/
def guessA : Guess := ⟨some "John Smith", 3/5, "audio"⟩

def guessB : Guess := ⟨some "John Smith", 1/2, "slides"⟩

/-- A disagreeing guess pair (spec scenario 4). -/
def guessAlice : Guess := ⟨some "Alice", 2/5, "audio"⟩

def guessBob : Guess := ⟨some "Bob", 13/20, "slides"⟩

/-! ## Basic lemmas -/

@[simp]
lemma JField.getD_absent {α : Type} (d : α) : (JField.absent : JField α).getD d = d := rfl

@[simp]
lemma JField.getD_val {α : Type} (a d : α) : (JField.val a).getD d = a := rfl

lemma pymin_le_right (a b : ℚ) : pymin a b ≤ b := by
  unfold pymin; split
  · assumption
  · exact le_rfl

lemma pymin_le_left (a b : ℚ) : pymin a b ≤ a := by
  unfold pymin; split
  · exact le_rfl
  · exact le_of_not_le (by assumption)

lemma le_pymin (a b c : ℚ) (h1 : a ≤ b) (h2 : a ≤ c) : a ≤ pymin b c := by
  unfold pymin; split <;> assumption

lemma pymin_eq_left (a b : ℚ) (h : a ≤ b) : pymin a b = a := by
  unfold pymin; rw [if_pos h]

lemma pymin_eq_right (a b : ℚ) (h : b ≤ a) : pymin a b = b := by
  unfold pymin; split
  · exact le_antisymm (by assumption) h
  · rfl

/-- Rounding `round(q, 3)` fixes exact thousandths. -/
lemma round3_thousandth (n : ℤ) : round3 ((n : ℚ) / 1000) = (n : ℚ) / 1000 := by
  unfold round3
  have hx : ((n : ℚ) / 1000) * 1000 = (n : ℚ) := by
    field_simp
  rw [hx, Int.floor_intCast]
  norm_num

/-! ## Claim theorems -/

/-- C4: `calculate_confidence` as written adds a length bonus of `0.1`
(not `0.2`) for every `transcript_length > 1000`: the source tests
`> 500` first, so the `elif transcript_length > 1000: +0.2` branch is
dead code and the claimed `0.3 + 0.2 = 0.5` value is never produced.
With no instructor and no topics, length 1500 yields `0.4`, not `0.5`. -/
theorem calculate_confidence_length_bonus_bug :
    calculate_confidence false false 1500 = 2/5 ∧
    calculate_confidence false false 501 = 2/5 ∧
    calculate_confidence false false 1500 ≠ 1/2 := by
  refine ⟨?_, ?_, ?_⟩ <;> · simp only [calculate_confidence, pymin]; norm_num

/-- C10: on every transcript/filename and every behaviour of the `re`
library, `_parse_fallback` (hence the always-available
`PatternBackend.analyze_content`) produces a `confidence_score` in
`{0.3, 0.5, 0.7, 0.8}`, hence never above `0.8`. -/
theorem parse_fallback_confidence_set
    (search : String → String → Option String)
    (response transcript filename : String) :
    ((parse_fallback search response transcript filename).confidence_score = JField.val (3/10) ∨
     (parse_fallback search response transcript filename).confidence_score = JField.val (1/2) ∨
     (parse_fallback search response transcript filename).confidence_score = JField.val (7/10) ∨
     (parse_fallback search response transcript filename).confidence_score = JField.val (4/5)) ∧
    (parse_fallback search response transcript filename).confidence_score.getD 0 ≤ 4/5 ∧
    patternBackend_analyze search transcript filename =
      parse_fallback search "" transcript filename := by
  refine ⟨?_, ?_, rfl⟩ <;>
  · simp only [parse_fallback]
    repeat' split
    all_goals simp only [JField.val.injEq, JField.getD_val]
    all_goals norm_num [pymin]

/-- C2: for every outcome of the active backend call (a result dict or a
raised exception), every behaviour of the content analyzer and every
transcript/filename, `AIBackendManager.analyze_content` returns a value:
no exception escapes the manager boundary. -/
theorem manager_always_returns
    (backendCall : Except Unit PResult) (activeName : String)
    (ca : AnalyzerOracle) (transcript filename : String) :
    ∃ r, managerAnalyze backendCall activeName ca transcript filename =
      Except.ok r := by
  unfold managerAnalyze
  rcases backendCall with _ | r0
  · exact ⟨_, rfl⟩
  · dsimp only
    split
    · exact ⟨_, rfl⟩
    · exact ⟨_, rfl⟩

/-- C3 (amended): when the active backend's `analyze_content` raises, the
manager does not iterate the remaining backends at all; it returns the
content-analyzer `_fallback_analysis` result, whose `extraction_method`
is `"content-analyzer-fallback"`. -/
theorem manager_exception_goes_to_content_analyzer
    (activeName : String) (ca : AnalyzerOracle) (transcript filename : String) :
    managerAnalyze (Except.error ()) activeName ca transcript filename =
      Except.ok (fallbackAnalysis ca transcript filename) ∧
    (fallbackAnalysis ca transcript filename).extraction_method =
      JField.val "content-analyzer-fallback" :=
  ⟨rfl, rfl⟩

/-- C3 (counterexample): with the llama-cpp backend active and raising,
the manager's result is tagged `"content-analyzer-fallback"`, not
`"<name> (fallback)"` for either remaining backend (`ollama`,
`pattern-matching`) — the remaining-backend iteration the claim describes
does not exist in `analyze_content`. -/
theorem manager_no_backend_iteration_cex :
    (managerAnalyze (Except.error ()) "llama-cpp" caEmpty "" "video.mp4").map
        (fun r => r.extraction_method) =
      Except.ok (JField.val "content-analyzer-fallback") ∧
    JField.val "content-analyzer-fallback" ≠
      JField.val ("ollama" ++ " (fallback)") ∧
    JField.val "content-analyzer-fallback" ≠
      JField.val ("pattern-matching" ++ " (fallback)") := by
  refine ⟨rfl, ?_, ?_⟩ <;> decide

/-- C6: whenever both guesses carry present names (not
null/empty/"unknown"/"not provided"/"n/a") that match case-insensitively,
`choose_instructor` returns that name with confidence
`round(min(0.99, (conf_a + conf_s)/2 + 0.15), 3)` and the combined
source tag `"audio+slides"`. -/
theorem choose_instructor_matching_names
    (a s : Guess)
    (ha : guessMissing a.name = false) (hs : guessMissing s.name = false)
    (hm : optLower a.name = optLower s.name) :
    choose_instructor (some a) (some s) =
      ⟨a.name,
       round3 (pymin (99/100) ((a.confidence + s.confidence) / 2 + 15/100)),
       "audio+slides"⟩ := by
  unfold choose_instructor
  simp only [Option.getD_some]
  rw [if_pos ⟨ha, hs⟩, if_pos hm]

/-- C6 witness: spec scenario 3 — confidences `0.6` and `0.5` on the
matching name `"John Smith"` fuse to exactly `0.7`. -/
theorem choose_instructor_matching_names_witness :
    choose_instructor (some guessA) (some guessB) =
      ⟨some "John Smith", 7/10, "audio+slides"⟩ := by
  have h := choose_instructor_matching_names guessA guessB
    (by decide) (by decide) rfl
  rw [h]
  have hc : pymin (99/100) ((guessA.confidence + guessB.confidence) / 2 + 15/100)
      = 7/10 := by
    norm_num [guessA, guessB, pymin]
  rw [hc]
  have he : ((700 : ℤ) : ℚ) / 1000 = 7/10 := by norm_num
  have h7 := round3_thousandth 700
  rw [he] at h7
  rw [h7]
  rfl

/-- C7: whenever both guesses carry present names that differ
case-insensitively, `choose_instructor` returns the higher-confidence
guess (ties kept by the audio guess), so the returned confidence is the
maximum of the two; in particular a lower-confidence guess never
overrides, which satisfies the claim's "override only above the 0.20
threshold" vacuously. -/
theorem choose_instructor_disagreement
    (a s : Guess)
    (ha : guessMissing a.name = false) (hs : guessMissing s.name = false)
    (hm : optLower a.name ≠ optLower s.name) :
    choose_instructor (some a) (some s) =
      (if a.confidence ≥ s.confidence then a else s) ∧
    (choose_instructor (some a) (some s)).confidence =
      max a.confidence s.confidence := by
  unfold choose_instructor
  simp only [Option.getD_some]
  rw [if_pos ⟨ha, hs⟩, if_neg hm]
  by_cases hov : s.confidence ≥ a.confidence + 20/100
  · have hsa : a.confidence ≤ s.confidence := by linarith
    rw [if_pos hov, if_neg (by linarith : ¬ a.confidence ≥ s.confidence)]
    exact ⟨rfl, (max_eq_right hsa).symm⟩
  · rw [if_neg hov]
    refine ⟨rfl, ?_⟩
    by_cases hge : a.confidence ≥ s.confidence
    · rw [if_pos hge]
      exact (max_eq_left hge).symm
    · rw [if_neg hge]
      exact (max_eq_right (le_of_not_le hge)).symm

/-- C7 witness: spec scenario 4 — Alice at `0.4` against Bob at `0.65`
(difference `0.25`) resolves to Bob, the higher-confidence guess. -/
theorem choose_instructor_disagreement_witness :
    choose_instructor (some guessAlice) (some guessBob) = guessBob := by
  have h := (choose_instructor_disagreement guessAlice guessBob
    (by decide) (by decide) (by decide)).1
  rw [h, if_neg (by norm_num [guessAlice, guessBob])]

/-- C5: the llama-cpp backend's `_enhanced_fallback_analysis` can emit
the category `"Behaviour"`, which lies outside the fixed closed set
`{Technology, Business, Education, Health, Science, Unknown}` that the
backend's own system prompt declares: its `category_keywords` table keys
the education-related keywords under `"Behaviour"`.  On the transcript
`"teaching session"` (filename `"video.mp4"`) this happens for every
behaviour of the regex and topic-extraction oracles. -/
theorem enhanced_fallback_behaviour_category
    (search : String → String → Option String) (topicsX : String → String) :
    (enhanced_fallback_analysis search topicsX "teaching session" "video.mp4").category
      = JField.val "Behaviour" ∧
    "Behaviour" ∉ ["Technology", "Business", "Education", "Health", "Science", "Unknown"] := by
  constructor
  · simp only [enhanced_fallback_analysis]
    rcases h : findFirstValidEnh search enh_instructor_patterns "teaching session"
      with _ | nm <;> simp only [h] <;> rfl
  · decide

/-! ## Lemmas about the enhancement merge steps -/

lemma pyTruthyName_false_iff (x : JField (Option String)) :
    pyTruthyName x = false ↔
      x = JField.absent ∨ x = JField.val none ∨ x = JField.val (some "") := by
  rcases x with _ | (_ | s) <;>
    simp [pyTruthyName, bne_eq_false_iff_eq]

lemma enhanceStep1_fields (ca : AnalyzerOracle) (t : String) (r : PResult) :
    (enhanceStep1 ca t r).training_content = r.training_content ∧
    (enhanceStep1 ca t r).category = r.category ∧
    (enhanceStep1 ca t r).extraction_method = r.extraction_method := by
  unfold enhanceStep1
  repeat' split
  all_goals exact ⟨rfl, rfl, rfl⟩

lemma enhanceStep1_conf (ca : AnalyzerOracle) (t : String) (r : PResult) :
    (enhanceStep1 ca t r).confidence_score =
      if instrReplaced ca t r then
        JField.val (pymin 1 (r.confidence_score.getD 0 + 2/10))
      else r.confidence_score := by
  unfold enhanceStep1 instrReplaced
  rcases hT : pyTruthyName r.instructor_name with _ | _
  · rcases hx : ca.extractInstructor t with _ | nm
    · simp [hx, pyTruthyOptStr]
    · rcases hne : (nm != "") with _ | _ <;> simp [hx, hne, pyTruthyOptStr]
  · simp [hT]

lemma enhanceStep1_instr (ca : AnalyzerOracle) (t : String) (r : PResult) :
    (enhanceStep1 ca t r).instructor_name =
      if instrReplaced ca t r then
        JField.val (some ((ca.extractInstructor t).getD ""))
      else r.instructor_name := by
  unfold enhanceStep1 instrReplaced
  rcases hT : pyTruthyName r.instructor_name with _ | _
  · rcases hx : ca.extractInstructor t with _ | nm
    · simp [hx, pyTruthyOptStr]
    · rcases hne : (nm != "") with _ | _ <;> simp [hx, hne, pyTruthyOptStr]
  · simp [hT]

lemma enhanceStep2_spec (ca : AnalyzerOracle) (t : String) (x : PResult) :
    ((enhanceStep2 ca t x).instructor_name = x.instructor_name ∧
     (enhanceStep2 ca t x).category = x.category ∧
     (enhanceStep2 ca t x).extraction_method = x.extraction_method) ∧
    (enhanceStep2 ca t x).training_content =
      (if contentReplaced ca t x then JField.val (ca.extractTopics t)
       else x.training_content) ∧
    (enhanceStep2 ca t x).confidence_score =
      (if contentReplaced ca t x then
        JField.val (pymin 1 (x.confidence_score.getD 0 + 1/10))
      else x.confidence_score) := by
  unfold enhanceStep2 contentReplaced
  by_cases h1 : (x.training_content.getD "").length < 100
  · by_cases h2 : (ca.extractTopics t).length > (x.training_content.getD "").length
    · simp [h1, h2]
    · simp [h1, h2]
  · simp [h1]

lemma enhanceStep3_spec (ca : AnalyzerOracle) (t f : String) (x : PResult) :
    (enhanceStep3 ca t f x).instructor_name = x.instructor_name ∧
    (enhanceStep3 ca t f x).training_content = x.training_content ∧
    (enhanceStep3 ca t f x).extraction_method = x.extraction_method ∧
    (enhanceStep3 ca t f x).confidence_score = x.confidence_score ∧
    ((enhanceStep3 ca t f x).category ≠ x.category →
      x.category = JField.val "Unknown" ∧
      (enhanceStep3 ca t f x).category ≠ JField.val "Unknown") := by
  unfold enhanceStep3
  by_cases hc : x.category = JField.val "Unknown"
  · rw [if_pos hc]
    rcases hd : (ca.detectCat t f != "Unknown") with _ | _
    · simp [hd]
    · have hd2 : ca.detectCat t f ≠ "Unknown" := bne_iff_ne.mp hd
      simp [hd, hc, hd2]
  · rw [if_neg hc]
    exact ⟨rfl, rfl, rfl, rfl, fun hne => absurd rfl hne⟩

/-! ## Key-presence lemmas -/

lemma parse_fallback_keys (search : String → String → Option String)
    (response transcript filename : String) :
    hasDataKeys (parse_fallback search response transcript filename) := by
  unfold parse_fallback hasDataKeys
  dsimp only
  refine ⟨?_, ?_, ?_, ?_⟩ <;>
  · repeat' split
    all_goals exact fun h => JField.noConfusion h

lemma enhanced_fallback_keys (search : String → String → Option String)
    (topicsX : String → String) (transcript filename : String) :
    hasAllKeys (enhanced_fallback_analysis search topicsX transcript filename) := by
  unfold enhanced_fallback_analysis hasAllKeys hasDataKeys
  dsimp only
  refine ⟨⟨?_, ?_, ?_, ?_⟩, ?_⟩ <;>
  · repeat' split
    all_goals exact fun h => JField.noConfusion h

lemma llamaCoerce_keys (data : PResult) : hasDataKeys (llamaCoerce data) := by
  unfold llamaCoerce hasDataKeys
  exact ⟨fun h => JField.noConfusion h, fun h => JField.noConfusion h,
         fun h => JField.noConfusion h, fun h => JField.noConfusion h⟩

lemma fallbackAnalysis_keys (ca : AnalyzerOracle) (transcript filename : String) :
    hasAllKeys (fallbackAnalysis ca transcript filename) := by
  unfold fallbackAnalysis hasAllKeys hasDataKeys
  exact ⟨⟨fun h => JField.noConfusion h, fun h => JField.noConfusion h,
          fun h => JField.noConfusion h, fun h => JField.noConfusion h⟩,
         fun h => JField.noConfusion h⟩

lemma enhanceStep3_cat_present (ca : AnalyzerOracle) (t f : String) (x : PResult)
    (h : x.category ≠ JField.absent) :
    (enhanceStep3 ca t f x).category ≠ JField.absent := by
  unfold enhanceStep3
  dsimp only
  split_ifs
  · exact fun hh => JField.noConfusion hh
  · exact h
  · exact h

lemma enhanceWith_keys (ca : AnalyzerOracle) (t f : String) (r : PResult)
    (h : hasDataKeys r) : hasAllKeys (enhanceWith ca t f r) := by
  obtain ⟨hi, ht, hc, hs⟩ := h
  have f1 := enhanceStep1_fields ca t r
  have c1 := enhanceStep1_conf ca t r
  have n1 := enhanceStep1_instr ca t r
  have s2 := enhanceStep2_spec ca t (enhanceStep1 ca t r)
  have s3 := enhanceStep3_spec ca t f (enhanceStep2 ca t (enhanceStep1 ca t r))
  refine ⟨⟨?_, ?_, ?_, ?_⟩, fun hh => JField.noConfusion hh⟩
  · have e : (enhanceWith ca t f r).instructor_name =
        (enhanceStep1 ca t r).instructor_name := by
      rw [show (enhanceWith ca t f r).instructor_name =
        (enhanceStep3 ca t f (enhanceStep2 ca t (enhanceStep1 ca t r))).instructor_name
        from rfl, s3.1, s2.1.1]
    rw [e, n1]
    split
    · exact fun hh => JField.noConfusion hh
    · exact hi
  · have e : (enhanceWith ca t f r).training_content =
        (enhanceStep2 ca t (enhanceStep1 ca t r)).training_content := by
      rw [show (enhanceWith ca t f r).training_content =
        (enhanceStep3 ca t f (enhanceStep2 ca t (enhanceStep1 ca t r))).training_content
        from rfl, s3.2.1]
    rw [e, s2.2.1]
    split
    · exact fun hh => JField.noConfusion hh
    · rw [f1.1]
      exact ht
  · have e : (enhanceWith ca t f r).category =
        (enhanceStep3 ca t f (enhanceStep2 ca t (enhanceStep1 ca t r))).category := rfl
    rw [e]
    refine enhanceStep3_cat_present ca t f _ ?_
    rw [s2.1.2.1, f1.2.1]
    exact hc
  · have e : (enhanceWith ca t f r).confidence_score =
        (enhanceStep2 ca t (enhanceStep1 ca t r)).confidence_score := by
      rw [show (enhanceWith ca t f r).confidence_score =
        (enhanceStep3 ca t f (enhanceStep2 ca t (enhanceStep1 ca t r))).confidence_score
        from rfl, s3.2.2.2.1]
    rw [e, s2.2.2]
    split
    · exact fun hh => JField.noConfusion hh
    · rw [c1]
      split
      · exact fun hh => JField.noConfusion hh
      · exact hs

/-- C1: for every backend-call outcome of the shapes the backends
actually produce — an exception, or a dict carrying all four data keys —
the manager returns a fully-populated result (all five keys present,
absence encoded in the values, never as a missing key).  The remaining
conjuncts show the backends produce exactly those shapes: the ollama
backend never passes raw JSON through, because its `asyncio.to_thread`
coroutine is never awaited, so `resp.status_code` always raises and
every call returns the `_parse_fallback` dict (whose four data keys are
always present); and the llama-cpp backend coerces every field of its
parsed JSON with defaults, so even a raw JSON object lacking some of the
fields yields a dict with all four data keys. -/
theorem manager_full_population
    (bc : Except Unit PResult)
    (hbc : bc = Except.error () ∨ ∃ r0, bc = Except.ok r0 ∧ hasDataKeys r0)
    (activeName : String) (ca : AnalyzerOracle) (transcript filename : String) :
    (∃ r, managerAnalyze bc activeName ca transcript filename = Except.ok r ∧
      hasAllKeys r) ∧
    (∀ (available : Bool) (search : String → String → Option String)
       (t2 f2 : String),
      ollamaAnalyze available search t2 f2 = Except.error () ∨
        ollamaAnalyze available search t2 f2 =
          Except.ok (parse_fallback search "" (ollama_truncate t2) f2)) ∧
    (∀ (search : String → String → Option String) (resp t2 f2 : String),
      hasDataKeys (parse_fallback search resp t2 f2)) ∧
    (∀ (available : Bool) (inference : Except Unit PResult)
       (search : String → String → Option String) (topicsX : String → String)
       (t2 f2 : String) (r : PResult),
      llamaAnalyze available inference search topicsX t2 f2 = Except.ok r →
        hasDataKeys r) := by
  refine ⟨?_, ?_, fun search resp t2 f2 => parse_fallback_keys search resp t2 f2, ?_⟩
  · rcases hbc with hbc | ⟨r0, hbc, hdata⟩
    · subst hbc
      exact ⟨_, rfl, fallbackAnalysis_keys ca transcript filename⟩
    · subst hbc
      unfold managerAnalyze
      dsimp only
      split
      · exact ⟨_, rfl, enhanceWith_keys ca transcript filename _
          ⟨hdata.1, hdata.2.1, hdata.2.2.1, hdata.2.2.2⟩⟩
      · exact ⟨_, rfl, ⟨hdata.1, hdata.2.1, hdata.2.2.1, hdata.2.2.2⟩,
          fun hh => JField.noConfusion hh⟩
  · intro available search t2 f2
    cases available
    · exact Or.inl rfl
    · exact Or.inr rfl
  · intro available inference search topicsX t2 f2 r hr
    unfold llamaAnalyze at hr
    cases available
    · exact Except.noConfusion hr
    · rcases inference with a | data
      · dsimp only at hr
        injection hr with h
        rw [← h]
        exact (enhanced_fallback_keys search topicsX (llama_truncate t2) f2).1
      · dsimp only at hr
        injection hr with h
        rw [← h]
        exact llamaCoerce_keys data

/-- C1 witness: the fully-populated guarantee at a concrete input. -/
theorem manager_full_population_witness :
    ∃ r, managerAnalyze (Except.error ()) "ollama" caEmpty "" "video.mp4" =
      Except.ok r ∧ hasAllKeys r :=
  (manager_full_population (Except.error ()) (Or.inl rfl) "ollama" caEmpty
    "" "video.mp4").1

/-- C8 (amended): for every input result with an in-range confidence
(`≤ 1.0` — the data model's range for an AnalysisResult, and necessary:
counterexample (ii) shows the clamp lowers an out-of-range `1.5` to
`1.0`), enhancement never decreases `confidence_score`, and only
overwrites a field when the heuristic candidate is objectively better:
`instructor_name` only where the original was null/absent/**empty**
(counterexample (i): the code keys on truthiness), `training_content`
only with a strictly longer string where the original was under 100
characters, `category` only replacing `"Unknown"` with a non-`"Unknown"`
value; a successful instructor replacement adds `+0.2` and a content
replacement `+0.1`, each clamped to `1.0`. -/
theorem enhance_merge_rule (ca : AnalyzerOracle) (t f : String) (r : PResult)
    (h : r.confidence_score.getD 0 ≤ 1) :
    r.confidence_score.getD 0 ≤ (enhanceWith ca t f r).confidence_score.getD 0 ∧
    (∀ nm, r.instructor_name = JField.val (some nm) → nm ≠ "" →
      (enhanceWith ca t f r).instructor_name = r.instructor_name) ∧
    ((enhanceWith ca t f r).instructor_name ≠ r.instructor_name →
      r.instructor_name = JField.absent ∨ r.instructor_name = JField.val none ∨
        r.instructor_name = JField.val (some "")) ∧
    ((enhanceWith ca t f r).training_content ≠ r.training_content →
      (r.training_content.getD "").length < 100 ∧
      ((enhanceWith ca t f r).training_content.getD "").length >
        (r.training_content.getD "").length) ∧
    ((enhanceWith ca t f r).category ≠ r.category →
      r.category = JField.val "Unknown" ∧
      (enhanceWith ca t f r).category ≠ JField.val "Unknown") ∧
    (enhanceWith ca t f r).confidence_score.getD 0 =
      pymin 1 (pymin 1 (r.confidence_score.getD 0 +
          (if instrReplaced ca t r then 2/10 else 0)) +
        (if contentReplaced ca t r then 1/10 else 0)) := by
  have f1 := enhanceStep1_fields ca t r
  have c1 := enhanceStep1_conf ca t r
  have n1 := enhanceStep1_instr ca t r
  have s2 := enhanceStep2_spec ca t (enhanceStep1 ca t r)
  have s3 := enhanceStep3_spec ca t f (enhanceStep2 ca t (enhanceStep1 ca t r))
  have eN : (enhanceWith ca t f r).instructor_name =
      (enhanceStep3 ca t f (enhanceStep2 ca t (enhanceStep1 ca t r))).instructor_name := rfl
  have eT : (enhanceWith ca t f r).training_content =
      (enhanceStep3 ca t f (enhanceStep2 ca t (enhanceStep1 ca t r))).training_content := rfl
  have eC : (enhanceWith ca t f r).category =
      (enhanceStep3 ca t f (enhanceStep2 ca t (enhanceStep1 ca t r))).category := rfl
  have eS : (enhanceWith ca t f r).confidence_score =
      (enhanceStep3 ca t f (enhanceStep2 ca t (enhanceStep1 ca t r))).confidence_score := rfl
  have hcr : contentReplaced ca t (enhanceStep1 ca t r) = contentReplaced ca t r := by
    unfold contentReplaced
    rw [f1.1]
  have instrChain : (enhanceWith ca t f r).instructor_name =
      (enhanceStep1 ca t r).instructor_name := by
    rw [eN, s3.1, s2.1.1]
  have confChain : (enhanceWith ca t f r).confidence_score =
      if contentReplaced ca t r then
        JField.val (pymin 1 ((enhanceStep1 ca t r).confidence_score.getD 0 + 1/10))
      else (enhanceStep1 ca t r).confidence_score := by
    rw [eS, s3.2.2.2.1, s2.2.2, hcr]
  have contChain : (enhanceWith ca t f r).training_content =
      if contentReplaced ca t r then JField.val (ca.extractTopics t)
      else r.training_content := by
    rw [eT, s3.2.1, s2.2.1, hcr, f1.1]
  have xcat : (enhanceStep2 ca t (enhanceStep1 ca t r)).category = r.category := by
    rw [s2.1.2.1, f1.2.1]
  have r1conf : (enhanceStep1 ca t r).confidence_score.getD 0 =
      pymin 1 (r.confidence_score.getD 0 +
        (if instrReplaced ca t r then 2/10 else 0)) := by
    rw [c1]
    cases hI : instrReplaced ca t r
    · simp only [hI, Bool.false_eq_true, if_false]
      rw [add_zero, pymin_eq_right _ _ h]
    · simp only [hI, if_true, JField.getD_val]
  have clause6 : (enhanceWith ca t f r).confidence_score.getD 0 =
      pymin 1 (pymin 1 (r.confidence_score.getD 0 +
          (if instrReplaced ca t r then 2/10 else 0)) +
        (if contentReplaced ca t r then 1/10 else 0)) := by
    rw [confChain]
    cases hC : contentReplaced ca t r
    · simp only [hC, Bool.false_eq_true, if_false]
      rw [add_zero, r1conf, pymin_eq_right _ _ (pymin_le_left _ _)]
    · simp only [hC, if_true, JField.getD_val]
      rw [r1conf]
  refine ⟨?_, ?_, ?_, ?_, ?_, clause6⟩
  · rw [clause6]
    have b1nn : (0:ℚ) ≤ (if instrReplaced ca t r then 2/10 else 0) := by
      split <;> norm_num
    have b2nn : (0:ℚ) ≤ (if contentReplaced ca t r then (1:ℚ)/10 else 0) := by
      split <;> norm_num
    have inner : r.confidence_score.getD 0 ≤
        pymin 1 (r.confidence_score.getD 0 +
          (if instrReplaced ca t r then 2/10 else 0)) :=
      le_pymin _ _ _ h (by linarith)
    exact le_pymin _ _ _ h (by linarith)
  · intro nm hnm hne
    have hT : pyTruthyName r.instructor_name = true := by
      rw [hnm]
      simp [pyTruthyName, hne]
    have hIR : instrReplaced ca t r = false := by
      unfold instrReplaced
      rw [hT]
      simp
    rw [instrChain, n1, hIR]
    simp
  · intro hne
    by_cases hIR : instrReplaced ca t r = true
    · have hfalse : pyTruthyName r.instructor_name = false := by
        simp only [instrReplaced, Bool.and_eq_true] at hIR
        simpa using hIR.1
      exact (pyTruthyName_false_iff _).mp hfalse
    · have hIRf : instrReplaced ca t r = false := by
        revert hIR
        cases instrReplaced ca t r <;> simp
      rw [instrChain, n1, hIRf] at hne
      simp at hne
  · intro hne
    cases hC : contentReplaced ca t r
    · rw [contChain, hC] at hne
      simp at hne
    · have hC2 := hC
      simp only [contentReplaced, Bool.and_eq_true, decide_eq_true_eq] at hC2
      refine ⟨hC2.1, ?_⟩
      rw [contChain, hC]
      simpa using hC2.2
  · intro hne
    rw [eC] at hne ⊢
    have hx := s3.2.2.2.2 (by rw [xcat]; exact hne)
    rw [xcat] at hx
    exact hx

/-- C8 (counterexample, two parts, both at the transcript
`"I'm John Smith."` where the real analyzer extracts `"John Smith"`):
(i) the instructor merge step keys on Python truthiness, so a *present
but empty* `instructor_name` (producible by a raw backend JSON answer)
is overwritten even though it is neither null nor absent — against the
claim's "only where the original was null/absent"; (ii) on an input with
the out-of-range confidence `1.5` (producible by the llama-cpp coercion,
which does not clamp), the instructor replacement clamps the confidence
down to `1.0 < 1.5` — so "never decreases confidence" needs the data
model's `≤ 1.0` range as a hypothesis. -/
theorem enhance_merge_claim_cex :
    (enhanceWith caFindsJohn johnTranscript "intro.mp4"
        emptyInstrResult).instructor_name = JField.val (some "John Smith") ∧
    emptyInstrResult.instructor_name = JField.val (some "") ∧
    JField.val (some "") ≠ (JField.absent : JField (Option String)) ∧
    (some "" : Option String) ≠ none ∧
    highConfResult.confidence_score.getD 0 = 3/2 ∧
    (enhanceWith caFindsJohn johnTranscript "intro.mp4"
        highConfResult).confidence_score.getD 0 = 1 ∧
    (1 : ℚ) < 3/2 := by
  refine ⟨rfl, rfl, by decide, by decide, rfl, ?_, by norm_num⟩
  have h : (enhanceWith caFindsJohn johnTranscript "intro.mp4"
      highConfResult).confidence_score = JField.val (pymin 1 (3/2 + 2/10)) := rfl
  rw [h, JField.getD_val]
  norm_num [pymin]

/-- C8 witness: the merge rule applied at a concrete in-range input. -/
theorem enhance_merge_rule_witness :
    emptyInstrResult.confidence_score.getD 0 ≤ 1 ∧
    emptyInstrResult.confidence_score.getD 0 ≤
      (enhanceWith caFindsJohn johnTranscript "intro.mp4"
        emptyInstrResult).confidence_score.getD 0 :=
  ⟨by norm_num [emptyInstrResult, JField.getD],
   (enhance_merge_rule caFindsJohn johnTranscript "intro.mp4"
     emptyInstrResult (by norm_num [emptyInstrResult, JField.getD])).1⟩

/-- C9: for every behaviour of the regex-count library and every
transcript/filename, `detect_category` returns one of
`{Technology, Business, Health, Education, Unknown}` — never
`"Science"`, since `topic_patterns` declares no Science group — and,
writing `s1..s4` for the four group scores in declaration order
(Technology, Business, Health, Education), the result is `"Unknown"`
exactly on all-zero scores and otherwise the *first-declared* category
whose score equals the maximum: a category wins only by strictly
exceeding every earlier-declared one. -/
theorem detect_category_closed_and_first_wins
    (count : String → String → Nat) (t f : String) (s1 s2 s3 s4 : Nat)
    (h1 : categorySum count (strLower (t ++ " " ++ f)) technologyPatterns = s1)
    (h2 : categorySum count (strLower (t ++ " " ++ f)) businessPatterns = s2)
    (h3 : categorySum count (strLower (t ++ " " ++ f)) healthPatterns = s3)
    (h4 : categorySum count (strLower (t ++ " " ++ f)) educationPatterns = s4) :
    detect_category count t f ∈
      ["Technology", "Business", "Health", "Education", "Unknown"] ∧
    detect_category count t f ≠ "Science" ∧
    (s1 = 0 ∧ s2 = 0 ∧ s3 = 0 ∧ s4 = 0 → detect_category count t f = "Unknown") ∧
    (¬(s1 = 0 ∧ s2 = 0 ∧ s3 = 0 ∧ s4 = 0) →
      ((detect_category count t f = "Technology" ↔ s1 ≥ s2 ∧ s1 ≥ s3 ∧ s1 ≥ s4) ∧
       (detect_category count t f = "Business" ↔ s2 > s1 ∧ s2 ≥ s3 ∧ s2 ≥ s4) ∧
       (detect_category count t f = "Health" ↔ s3 > s1 ∧ s3 > s2 ∧ s3 ≥ s4) ∧
       (detect_category count t f = "Education" ↔ s4 > s1 ∧ s4 > s2 ∧ s4 > s3))) := by
  have hd : detect_category count t f =
      (if listMaxN [s1, s2, s3, s4] > 0 then
        (firstArgmax [("Technology", s1), ("Business", s2),
                      ("Health", s3), ("Education", s4)]).1
      else "Unknown") := by
    unfold detect_category categoryScores topic_patterns
    simp only [List.map_cons, List.map_nil]
    rw [h1, h2, h3, h4]
  rw [hd]
  by_cases hz : s1 = 0 ∧ s2 = 0 ∧ s3 = 0 ∧ s4 = 0
  · obtain ⟨z1, z2, z3, z4⟩ := hz
    subst z1; subst z2; subst z3; subst z4
    exact ⟨by decide, by decide, fun _ => by decide,
           fun hnz => absurd ⟨rfl, rfl, rfl, rfl⟩ hnz⟩
  · have hpos : listMaxN [s1, s2, s3, s4] > 0 := by
      simp only [listMaxN, List.foldr_cons, List.foldr_nil, gt_iff_lt, lt_max_iff]
      omega
    rw [if_pos hpos]
    simp only [firstArgmax, List.foldl_cons, List.foldl_nil]
    split_ifs <;> dsimp only at * <;>
      refine ⟨by decide, by decide, fun hzz => absurd hzz hz, fun _ => ⟨?_, ?_, ?_, ?_⟩⟩ <;>
        first
        | exact iff_of_true rfl (by omega)
        | exact iff_of_false (by decide) (by omega)

/-- C9 witness: with every pattern matching once (a four-way tie at
nonzero score 3), the first-declared category Technology wins. -/
theorem detect_category_first_wins_witness :
    detect_category countOne "x" "y" = "Technology" ∧
    detect_category countOne "x" "y" ∈
      ["Technology", "Business", "Health", "Education", "Unknown"] := by
  have h := detect_category_closed_and_first_wins countOne "x" "y" 3 3 3 3
    rfl rfl rfl rfl
  exact ⟨(h.2.2.2 (by norm_num)).1.mpr (by norm_num), h.1⟩

end ModelService
